import Mathlib

/-
Verification of the fetch / align / derive / forecast pipeline of the
electricity-dashboard repository.

The embedding follows src/electricity_dashboard_final_debugged.py (the file
the claims cite) and src/electricity_dashboard_rolling7d.py.  Timestamps are
modelled as natural numbers (pd.to_datetime on the ISO period strings of the
upstream API is order-preserving, so the parsed instant is what matters);
metric values are modelled as integers, abstracting the floating-point values
by exact numbers.  Pandas DataFrames produced by the pipeline are modelled as
tables of timestamp-keyed rows, each row an association list from column name
to value.  Python exceptions are modelled with an explicit error type, and the
in-place mutations of the intertie block are modelled with an explicit heap of
tables.
-/

namespace ElectricityDashboard

/-- One record of the upstream response.data array.  A well-formed record has
a period parseable as a timestamp (modelled as the parsed instant) and a
numeric value. -/
structure EIARecord where
  period : Nat
  value : Int
deriving DecidableEq

/-- The upstream HTTP response as seen by fetch_eia_v2_hourly_series:
a status code and the response.data array (defaulting to the empty list when
the payload has no response or data key, mirroring the .get chain at line 71
of electricity_dashboard_final_debugged.py). -/
structure HTTPResponse where
  status_code : Nat
  respData : List EIARecord
deriving DecidableEq

/-- The error taxonomy of the specification.  In the source these are the
st.error / st.warning signals emitted next to the early returns of the fetch
routine. -/
inductive ErrSignal where
  | UnsupportedMetricError
  | UpstreamUnavailableError
  | NoDataError
deriving DecidableEq

/-- Python exceptions that the modelled code can raise. -/
inductive PyExc where
  | AttributeError (obj attr : String)
  | NameError (n : String)
  | KeyError (k : String)
deriving DecidableEq

deriving instance DecidableEq for Except

/-- Result of one run of a fetch routine: the returned frame (rows of
(datetime, value)) or the exception that escaped, the error signal shown to
the user, whether the HTTP GET to the upstream API was issued, and whether
control reached the metric-map membership check. -/
structure FetchRun where
  result : Except PyExc (List (Nat × Int))
  signal : Option ErrSignal
  networkCalled : Bool
  metricCheckReached : Bool
deriving DecidableEq

/-- The static metric-selector mapping of the source (identical in all four
files): the seven supported metric kinds and their EIA v2 facet codes. -/
def metric_map : List (String × String) :=
  [("demand", "D"),
   ("net_generation", "NG"),
   ("wind", "NG.WND"),
   ("solar", "NG.SUN"),
   ("net_interchange", "NI"),
   ("lmp_da", "LMP_DA"),
   ("lmp_rt", "LMP_RT")]

namespace FinalDebugged

/-- Embedding of fetch_eia_v2_hourly_series of
electricity_dashboard_final_debugged.py (lines 32-79).  The file imports
datetime and timedelta by name, so the rolling date-range computation at
lines 33-38 succeeds and only emits a UI caption; the function then
(1) rejects metrics outside metric_map before any HTTP request,
(2) issues the GET and rejects non-200 responses,
(3) rejects an empty data array,
(4) otherwise builds the frame from the records in upstream order:
df[datetime] = to_datetime(df[period]); df = df[[datetime, value]] renamed.
No local sort and no deduplication is performed. -/
def fetch_eia_v2_hourly_series (metric : String) (resp : HTTPResponse) : FetchRun :=
  if (metric_map.lookup metric).isNone then
    { result := .ok [], signal := some .UnsupportedMetricError,
      networkCalled := false, metricCheckReached := true }
  else if resp.status_code ≠ 200 then
    { result := .ok [], signal := some .UpstreamUnavailableError,
      networkCalled := true, metricCheckReached := true }
  else if resp.respData.isEmpty then
    { result := .ok [], signal := some .NoDataError,
      networkCalled := true, metricCheckReached := true }
  else
    { result := .ok (resp.respData.map (fun rec => (rec.period, rec.value))),
      signal := none, networkCalled := true, metricCheckReached := true }

end FinalDebugged

/-- Names bound at module scope in electricity_dashboard_rolling7d.py: the
file imports streamlit, pandas, plotly.express, Prophet, requests and the
datetime module (import datetime, line 7).  It never imports the name
timedelta. -/
def rolling7d_globals : List String :=
  ["st", "pd", "px", "Prophet", "requests", "datetime"]

/-- Attributes of the Python standard-library module named datetime.  The
module exposes the classes date, time, datetime, timedelta, timezone, tzinfo
and the two year constants; utcnow is a method of the class
datetime.datetime, not an attribute of the module itself. -/
def datetime_module_attrs : List String :=
  ["date", "time", "datetime", "timedelta", "timezone", "tzinfo",
   "MINYEAR", "MAXYEAR"]

namespace Rolling7d

/-- Embedding of fetch_eia_v2_hourly_series of
electricity_dashboard_rolling7d.py (lines 12-62).  Line 14 evaluates
datetime.utcnow(): the name datetime resolves to the module (import
datetime), and the attribute lookup of utcnow on the module is attempted
first; line 15 then evaluates the bare name timedelta, which must be found
among the module-scope names.  Only afterwards comes the metric-map check
and, later, the HTTP GET — the body from the metric check on is the same as
in the final_debugged variant. -/
def fetch_eia_v2_hourly_series (respondent metric api_key : String)
    (resp : HTTPResponse) : FetchRun :=
  if "utcnow" ∉ datetime_module_attrs then
    { result := .error (.AttributeError "datetime" "utcnow"), signal := none,
      networkCalled := false, metricCheckReached := false }
  else if "timedelta" ∉ rolling7d_globals then
    { result := .error (.NameError "timedelta"), signal := none,
      networkCalled := false, metricCheckReached := false }
  else if (metric_map.lookup metric).isNone then
    { result := .ok [], signal := some .UnsupportedMetricError,
      networkCalled := false, metricCheckReached := true }
  else
    let _url : String :=
      "https://api.eia.gov/v2/electricity/rto/region-data/data/" ++
      "?frequency=hourly&data[0]=value&facets[respondent][]=" ++ respondent ++
      "&api_key=" ++ api_key
    if resp.status_code ≠ 200 then
      { result := .ok [], signal := some .UpstreamUnavailableError,
        networkCalled := true, metricCheckReached := true }
    else if resp.respData.isEmpty then
      { result := .ok [], signal := some .NoDataError,
        networkCalled := true, metricCheckReached := true }
    else
      { result := .ok (resp.respData.map (fun rec => (rec.period, rec.value))),
        signal := none, networkCalled := true, metricCheckReached := true }

end Rolling7d

/-- A fetched series: the frame returned by fetch_eia_v2_hourly_series, with
its value column renamed to the metric's canonical name (line 78) and its
datetime column used as the join key of the merges. -/
structure TS where
  name : String
  rows : List (Nat × Int)
deriving DecidableEq

/-- Timestamps of a series, in frame order. -/
def TS.keys (s : TS) : List Nat := s.rows.map Prod.fst

/-- A wide pandas frame of the pipeline: the datetime join key per row, each
row carrying an association list from column name to value, plus the list of
value columns of the frame. -/
structure Table where
  cols : List String
  rows : List (Nat × List (String × Int))
deriving DecidableEq

/-- Timestamps of a table, in frame order. -/
def Table.keys (tbl : Table) : List Nat := tbl.rows.map Prod.fst

/-- The value of the table at a given timestamp and column, when present. -/
def Table.cellAt (tbl : Table) (t : Nat) (c : String) : Option Int :=
  (tbl.rows.lookup t).bind (fun vs => vs.lookup c)

/-- A well-formed wide frame: every row carries exactly the frame's columns.
This is the AlignedTable invariant of the specification (each row has a
non-missing value for every included column). -/
def Table.WF (tbl : Table) : Prop :=
  ∀ r ∈ tbl.rows, r.2.map Prod.fst = tbl.cols

/-- View a fetched series as a one-column frame keyed by datetime. -/
def toTable (s : TS) : Table :=
  { cols := [s.name],
    rows := s.rows.map (fun p => (p.1, [(s.name, p.2)])) }

/-- Embedding of df1.merge(df2, on="datetime"): the pandas inner join used at
lines 105 and 118 of electricity_dashboard_final_debugged.py.  A left row
survives exactly when its datetime also occurs on the right, and the
surviving row carries the columns of both frames; left frame order is
preserved.  (At line 118 the suffixes argument is inert: the two price frames
share no value-column name.) -/
def innerMerge (t1 t2 : Table) : Table :=
  { cols := t1.cols ++ t2.cols,
    rows := t1.rows.filterMap (fun r =>
      match t2.rows.lookup r.1 with
      | some vs => some (r.1, r.2 ++ vs)
      | none => none) }

/-- The align step of the pipeline: the chain of inner merges on datetime,
left to right, as in load_df.merge(wind_df, on="datetime").merge(solar_df,
on="datetime") (line 105) and the price merge chain (line 118). -/
def align : List TS → Table
  | [] => { cols := [], rows := [] }
  | s :: rest => (rest.map toTable).foldl innerMerge (toTable s)

/-- The row that align produces at timestamp t, computed series by series:
some assignment exactly when every series has a value at t, pairing each
series name with its value, in input order. -/
def allVals (l : List TS) (t : Nat) : Option (List (String × Int)) :=
  l.foldr (fun u acc =>
    (u.rows.lookup t).bind (fun v => acc.map (fun r => (u.name, v) :: r)))
    (some [])

/-- Column name of the derived spread, line 119. -/
def spreadCol : String := "Spread ($/MWh)"

/-- Embedding of line 119 of electricity_dashboard_final_debugged.py:
merged_prices[spreadCol] = merged_prices[daCol] - merged_prices[rtCol].
The right-hand side is evaluated first: pandas column access raises
KeyError naming the missing column (the MissingColumnError of the
specification), the day-ahead column being accessed before the real-time
one; on success the spread column is appended to the frame, each row's
spread being the single subtraction of its two price cells. -/
def setSpread (tbl : Table) : Except PyExc Table :=
  if "lmp_da" ∈ tbl.cols then
    if "lmp_rt" ∈ tbl.cols then
      .ok { cols := tbl.cols ++ [spreadCol],
            rows := tbl.rows.map (fun r =>
              (r.1, r.2 ++
                [(spreadCol,
                  ((r.2.lookup "lmp_da").getD 0) - ((r.2.lookup "lmp_rt").getD 0))])) }
    else .error (.KeyError "lmp_rt")
  else .error (.KeyError "lmp_da")

/-- Embedding of line 120: merged_prices.rename(columns=..., inplace=True),
renaming one column throughout the frame. -/
def renameCol (tbl : Table) (oldName newName : String) : Table :=
  { cols := tbl.cols.map (fun c => if c = oldName then newName else c),
    rows := tbl.rows.map (fun r =>
      (r.1, r.2.map (fun p => (if p.1 = oldName then newName else p.1, p.2)))) }

/-- A heap of pandas frames: Python variables hold references (indices) into
it, and in-place operations overwrite the referenced cell. -/
abbrev Heap := List Table

/-- The frame a reference denotes. -/
def Heap.get (h : Heap) (r : Nat) : Table := List.getD h r { cols := [], rows := [] }

/-- Overwrite the referenced cell (an in-place frame mutation). -/
def Heap.set (h : Heap) (r : Nat) (tbl : Table) : Heap := List.set h r tbl

/-- Number of live frames. -/
def Heap.size (h : Heap) : Nat := List.length h

/-- Executing the statement of line 119 on the frame that reference r
denotes: pandas column assignment mutates the frame in place, so on success
the referenced cell is overwritten with the augmented frame; when the
right-hand side raises, the exception propagates and the heap is unchanged
(the assignment never happens). -/
def runSpreadStmt (h : Heap) (r : Nat) : Heap × Option PyExc :=
  match setSpread (Heap.get h r) with
  | .ok t' => (Heap.set h r t', none)
  | .error e => (h, some e)

/-- Embedding of the intertie block, lines 118-120 of
electricity_dashboard_final_debugged.py, on a heap in which da, rt and ni
reference the three fetched price/interchange frames:
merged_prices = da_df.merge(rt_df, on="datetime", suffixes=("_DA", "_RT"))
                     .merge(ni_df, on="datetime")  — a NEW frame is allocated;
merged_prices[spreadCol] = merged_prices[da] - merged_prices[rt] — in place;
merged_prices.rename(columns=..., inplace=True) — in place.
Returns the final heap, the reference of merged_prices, and the exception if
one escaped. -/
def intertieBlock (h : Heap) (da rt ni : Nat) : (Heap × Nat) × Option PyExc :=
  let merged := innerMerge (innerMerge (Heap.get h da) (Heap.get h rt)) (Heap.get h ni)
  let mref := Heap.size h
  let h1 : Heap := h ++ [merged]
  match setSpread (Heap.get h1 mref) with
  | .error e => ((h1, mref), some e)
  | .ok t' =>
    ((Heap.set h1 mref (renameCol t' "net_interchange" "Net Interchange (MW)"), mref),
     none)

/-- One row of the frame returned by the forecaster: a timestamp, the point
estimate and the lower/upper interval bounds. -/
structure ForecastRow where
  ds : Nat
  yhat : Int
  yhat_lower : Int
  yhat_upper : Int
deriving DecidableEq

/-- Modelled from the spec: the third-party forecaster's
make_future_dataframe is not part of this repository.  Per the specification
the fit-predict cycle covers horizon_hours contiguous hourly steps starting
immediately after the last observed timestamp, and the underlying model also
emits fitted historical values (the source calls
m.make_future_dataframe(periods=48, freq="H") with the library's
include-history default, so the frame is the history dates followed by the
future dates).  Hours are modelled as successive naturals. -/
def make_future_dataframe (history_ds : List Nat) (periods : Nat) : List Nat :=
  match history_ds.getLast? with
  | none => []
  | some last => history_ds ++ (List.range periods).map (fun i => last + 1 + i)

/-- Modelled from the spec: the forecaster's predict is an opaque collaborator
that emits, for every timestamp of the frame it is given, a point estimate
with lower and upper interval bounds; it is modelled parametrically in the
fitted model m, mapping each timestamp to (yhat, yhat_lower, yhat_upper). -/
def predict (m : Nat → Int × Int × Int) (frame : List Nat) : List ForecastRow :=
  frame.map (fun t => { ds := t, yhat := (m t).1,
                        yhat_lower := (m t).2.1, yhat_upper := (m t).2.2 })

/-- The forecast pipeline of lines 90-96 of
electricity_dashboard_final_debugged.py: rename the fetched series to the
(ds, y) schema, fit, build the future frame for the requested horizon at
hourly frequency, and predict over it. -/
def forecast_load (history : List (Nat × Int)) (m : Nat → Int × Int × Int)
    (horizon : Nat) : List ForecastRow :=
  predict m (make_future_dataframe (history.map Prod.fst) horizon)

section Lemmas

/-- A lookup into a cons, written with a propositional test. -/
theorem lookup_cons_eq_if {α β : Type} [BEq α] [LawfulBEq α] [DecidableEq α]
    (k : α) (v : β) (tl : List (α × β)) (a : α) :
    ((k, v) :: tl).lookup a = if a = k then some v else tl.lookup a := by
  by_cases h : a = k
  · subst h
    rw [List.lookup_cons, if_pos rfl, beq_self_eq_true]
  · have hb : (a == k) = false := beq_eq_false_iff_ne.mpr h
    rw [List.lookup_cons, if_neg h, hb]

/-- A lookup succeeds exactly when the key occurs among the keys. -/
theorem lookup_isSome_iff {β : Type} (l : List (Nat × β)) (t : Nat) :
    (l.lookup t).isSome ↔ t ∈ l.map Prod.fst := by
  induction l with
  | nil => simp
  | cons p tl ih =>
    obtain ⟨k, v⟩ := p
    by_cases h : t = k
    · subst h; simp [lookup_cons_eq_if]
    · simp [lookup_cons_eq_if, h, ih]

/-- Lookup in an association list of string keys, cons step. -/
theorem slookup_cons (k : String) (v : Int) (tl : List (String × Int)) (c : String) :
    ((k, v) :: tl).lookup c = if c = k then some v else tl.lookup c :=
  lookup_cons_eq_if k v tl c

/-- A lookup of an absent string key yields none. -/
theorem slookup_eq_none (l : List (String × Int)) (c : String)
    (h : c ∉ l.map Prod.fst) : l.lookup c = none := by
  induction l with
  | nil => simp
  | cons p tl ih =>
    obtain ⟨k, v⟩ := p
    simp only [List.map_cons, List.mem_cons, not_or] at h
    rw [slookup_cons, if_neg h.1]
    exact ih h.2

/-- Lookup distributes over appending an association list. -/
theorem slookup_append (l1 l2 : List (String × Int)) (c : String) :
    (l1 ++ l2).lookup c = ((l1.lookup c).orElse (fun _ => l2.lookup c)) := by
  induction l1 with
  | nil => simp
  | cons p tl ih =>
    obtain ⟨k, v⟩ := p
    by_cases h : c = k
    · subst h; simp [slookup_cons]
    · simp [slookup_cons, h, ih]

/-- Row lookup across the filterMap that innerMerge builds. -/
theorem mergeRows_lookup (rows1 : List (Nat × List (String × Int)))
    (t2 : Table) (t : Nat) :
    (rows1.filterMap (fun r =>
        match t2.rows.lookup r.1 with
        | some vs => some (r.1, r.2 ++ vs)
        | none => none)).lookup t =
      (rows1.lookup t).bind (fun v1 => (t2.rows.lookup t).map (fun v2 => v1 ++ v2)) := by
  induction rows1 with
  | nil => simp
  | cons p tl ih =>
    obtain ⟨k, v⟩ := p
    by_cases h : t = k
    · subst h
      cases hk : t2.rows.lookup t with
      | none => simp [List.filterMap_cons, hk, ih, lookup_cons_eq_if]
      | some vs => simp [List.filterMap_cons, hk, lookup_cons_eq_if]
    · cases hk : t2.rows.lookup k with
      | none => simp [List.filterMap_cons, hk, ih, lookup_cons_eq_if, h]
      | some vs => simp [List.filterMap_cons, hk, ih, lookup_cons_eq_if, h]

/-- Row lookup of an inner merge: a timestamp has a row exactly when it has
one on both sides, and the row concatenates the two sides' columns. -/
theorem innerMerge_lookup (t1 t2 : Table) (t : Nat) :
    (innerMerge t1 t2).rows.lookup t =
      (t1.rows.lookup t).bind (fun v1 => (t2.rows.lookup t).map (fun v2 => v1 ++ v2)) :=
  mergeRows_lookup t1.rows t2 t

/-- Row lookup of a series viewed as a one-column frame. -/
theorem toTable_lookup (s : TS) (t : Nat) :
    (toTable s).rows.lookup t = (s.rows.lookup t).map (fun v => [(s.name, v)]) := by
  obtain ⟨n, r⟩ := s
  show (r.map (fun p => (p.1, [(n, p.2)]))).lookup t = (r.lookup t).map _
  induction r with
  | nil => simp
  | cons p tl ih =>
    obtain ⟨k, v⟩ := p
    rw [List.map_cons]
    by_cases h : t = k
    · subst h
      rw [lookup_cons_eq_if, if_pos rfl, lookup_cons_eq_if, if_pos rfl]
      rfl
    · rw [lookup_cons_eq_if, if_neg h, lookup_cons_eq_if, if_neg h, ih]

/-- The combining step of a row lookup across a merge chain. -/
def rowStep (t : Nat) (o : Option (List (String × Int))) (tb : Table) :
    Option (List (String × Int)) :=
  o.bind (fun v1 => (tb.rows.lookup t).map (fun v2 => v1 ++ v2))

/-- Row lookup commutes with folding inner merges. -/
theorem foldl_innerMerge_lookup (t : Nat) (ts : List Table) (acc : Table) :
    (ts.foldl innerMerge acc).rows.lookup t =
      ts.foldl (rowStep t) (acc.rows.lookup t) := by
  induction ts generalizing acc with
  | nil => rfl
  | cons tb rest ih =>
    simp only [List.foldl_cons]
    rw [ih, innerMerge_lookup]
    rfl

/-- Unfolding of allVals at a cons. -/
theorem allVals_cons (u : TS) (rest : List TS) (t : Nat) :
    allVals (u :: rest) t =
      (u.rows.lookup t).bind
        (fun v => (allVals rest t).map (fun r => (u.name, v) :: r)) := rfl

/-- Folding the row step over one-column frames computes allVals. -/
theorem foldl_rowStep_toTable (t : Nat) (l : List TS)
    (o : Option (List (String × Int))) :
    (l.map toTable).foldl (rowStep t) o =
      o.bind (fun v => (allVals l t).map (fun vs => v ++ vs)) := by
  induction l generalizing o with
  | nil => cases o <;> simp [allVals]
  | cons u rest ih =>
    simp only [List.map_cons, List.foldl_cons]
    rw [ih, allVals_cons]
    cases ho : o with
    | none => simp [rowStep]
    | some v =>
      cases hu : u.rows.lookup t with
      | none => simp [rowStep, toTable_lookup, hu]
      | some w =>
        cases hr : allVals rest t with
        | none => simp [rowStep, toTable_lookup, hu, hr]
        | some vs => simp [rowStep, toTable_lookup, hu, hr]

/-- Row lookup of align, computed series by series. -/
theorem align_lookup (s : TS) (rest : List TS) (t : Nat) :
    (align (s :: rest)).rows.lookup t = allVals (s :: rest) t := by
  show ((rest.map toTable).foldl innerMerge (toTable s)).rows.lookup t = _
  rw [foldl_innerMerge_lookup, foldl_rowStep_toTable, toTable_lookup, allVals_cons]
  cases hs : s.rows.lookup t with
  | none => simp
  | some v =>
    cases hr : allVals rest t with
    | none => simp [hr]
    | some vs => simp [hr]

/-- The aligned row exists exactly when every series has the timestamp. -/
theorem allVals_isSome_iff (l : List TS) (t : Nat) :
    (allVals l t).isSome ↔ ∀ u ∈ l, (u.rows.lookup t).isSome := by
  induction l with
  | nil => simp [allVals]
  | cons u rest ih =>
    rw [allVals_cons]
    constructor
    · intro h u' hu'
      cases hu : u.rows.lookup t with
      | none => rw [hu] at h; exact absurd h (by simp)
      | some v =>
        rw [hu] at h
        cases hr : allVals rest t with
        | none => rw [hr] at h; exact absurd h (by simp)
        | some r =>
          rcases List.mem_cons.mp hu' with he | he
          · subst he; simp [hu]
          · exact (ih.mp (by simp [hr])) u' he
    · intro h
      have h1 : (u.rows.lookup t).isSome := h u (List.mem_cons_self u rest)
      have h2 : (allVals rest t).isSome :=
        ih.mpr (fun u' hu' => h u' (List.mem_cons_of_mem u hu'))
      cases hu : u.rows.lookup t with
      | none => rw [hu] at h1; exact absurd h1 (by simp)
      | some v =>
        cases hr : allVals rest t with
        | none => rw [hr] at h2; exact absurd h2 (by simp)
        | some r => simp [hu, hr]

/-- In the aligned row, each series' column carries that series' value. -/
theorem allVals_lookup (l : List TS) (t : Nat) (s : TS)
    (hnames : (l.map TS.name).Nodup) (hmem : s ∈ l) (vs : List (String × Int))
    (hvs : allVals l t = some vs) :
    vs.lookup s.name = s.rows.lookup t := by
  induction l generalizing vs with
  | nil => cases hmem
  | cons u rest ih =>
    rw [allVals_cons] at hvs
    cases hu : u.rows.lookup t with
    | none =>
      rw [hu] at hvs
      exact Option.noConfusion hvs
    | some v =>
      rw [hu] at hvs
      cases hr : allVals rest t with
      | none => rw [hr] at hvs; exact Option.noConfusion hvs
      | some r =>
        rw [hr] at hvs
        injection hvs with hvs
        subst hvs
        simp only [List.map_cons, List.nodup_cons] at hnames
        rcases List.mem_cons.mp hmem with h | h
        · subst h; rw [slookup_cons, if_pos rfl, hu]
        · have hne : s.name ≠ u.name := by
            intro he
            exact hnames.1 (he ▸ List.mem_map_of_mem TS.name h)
          rw [slookup_cons, if_neg hne]
          exact ih hnames.2 h r hr

/-- The keys of a series viewed as a one-column frame are its timestamps. -/
theorem toTable_keys (s : TS) : (toTable s).keys = s.keys := by
  simp [toTable, Table.keys, TS.keys]

/-- Length of the merged rows: the left keys that also occur on the right. -/
theorem mergeRows_length (rows1 : List (Nat × List (String × Int))) (t2 : Table) :
    (rows1.filterMap (fun r =>
        match t2.rows.lookup r.1 with
        | some vs => some (r.1, r.2 ++ vs)
        | none => none)).length =
      ((rows1.map Prod.fst).filter (fun t => decide (t ∈ t2.keys))).length := by
  induction rows1 with
  | nil => rfl
  | cons p tl ih =>
    obtain ⟨k, v⟩ := p
    cases hk : t2.rows.lookup k with
    | none =>
      have hmem : k ∉ t2.keys := by
        rw [Table.keys, ← lookup_isSome_iff, hk]
        simp
      simp [List.filterMap_cons, hk, hmem, ih]
    | some vs =>
      have hmem : k ∈ t2.keys := by
        rw [Table.keys, ← lookup_isSome_iff, hk]
        rfl
      simp [List.filterMap_cons, hk, hmem, ih]

/-- Membership in the keys of an aligned table: exactly the timestamps every
input series carries. -/
theorem align_keys_mem (l : List TS) (hne : l ≠ []) (t : Nat) :
    t ∈ (align l).keys ↔ ∀ u ∈ l, t ∈ u.keys := by
  obtain ⟨s, rest, rfl⟩ := List.exists_cons_of_ne_nil hne
  rw [Table.keys, ← lookup_isSome_iff, align_lookup, allVals_isSome_iff]
  constructor
  · intro h u hu
    rw [TS.keys, ← lookup_isSome_iff]
    exact h u hu
  · intro h u hu
    rw [lookup_isSome_iff]
    exact h u hu

/-- At a timestamp every series carries, the aligned table's cell in a
series' column is that series' value. -/
theorem align_cellAt_of_all (l : List TS) (s : TS) (hmem : s ∈ l)
    (hnames : (l.map TS.name).Nodup) (t : Nat)
    (hall : ∀ u ∈ l, (u.rows.lookup t).isSome) :
    (align l).cellAt t s.name = s.rows.lookup t := by
  obtain ⟨shd, rest, rfl⟩ :=
    List.exists_cons_of_ne_nil (List.ne_nil_of_mem hmem)
  rw [Table.cellAt, align_lookup]
  have hsome : (allVals (shd :: rest) t).isSome :=
    (allVals_isSome_iff _ t).mpr hall
  obtain ⟨vs, hvs⟩ := Option.isSome_iff_exists.mp hsome
  rw [hvs]
  simpa using allVals_lookup _ t s hnames hmem vs hvs

/-- At a timestamp some series misses, the aligned table has no cell. -/
theorem align_cellAt_of_missing (l : List TS) (hne : l ≠ []) (t : Nat)
    (hmiss : ¬ ∀ u ∈ l, (u.rows.lookup t).isSome) (c : String) :
    (align l).cellAt t c = none := by
  obtain ⟨s, rest, rfl⟩ := List.exists_cons_of_ne_nil hne
  rw [Table.cellAt, align_lookup]
  have hnone : allVals (s :: rest) t = none :=
    Option.not_isSome_iff_eq_none.mp
      (fun h => hmiss ((allVals_isSome_iff _ t).mp h))
  rw [hnone]
  rfl

/-- Reading an unchanged cell after allocating a fresh frame at the end of
the heap. -/
theorem Heap.get_append_left (h : Heap) (m : Table) (r : Nat)
    (hr : r < Heap.size h) :
    Heap.get (h ++ [m]) r = Heap.get h r := by
  rw [Heap.get, Heap.get, List.getD_eq_getElem?_getD, List.getD_eq_getElem?_getD,
    List.getElem?_append_left hr]

/-- Reading a cell other than the one just overwritten. -/
theorem Heap.get_set_ne (h : Heap) (i r : Nat) (tbl : Table) (hne : i ≠ r) :
    Heap.get (Heap.set h i tbl) r = Heap.get h r := by
  rw [Heap.get, Heap.get, Heap.set, List.getD_eq_getElem?_getD,
    List.getD_eq_getElem?_getD, List.getElem?_set_ne hne]

/-- Reading the cell just overwritten. -/
theorem Heap.get_set_self (h : Heap) (i : Nat) (tbl : Table)
    (hi : i < Heap.size h) :
    Heap.get (Heap.set h i tbl) i = tbl := by
  rw [Heap.get, Heap.set, List.getD_eq_getElem?_getD, List.getElem?_set_self hi]
  rfl

/-- The columns of a renamed frame. -/
theorem renameCol_cols (tbl : Table) (oldName newName : String) :
    (renameCol tbl oldName newName).cols =
      tbl.cols.map (fun c => if c = oldName then newName else c) := rfl

/-- The columns of the frame a successful spread assignment builds. -/
theorem setSpread_ok_cols (tbl t' : Table) (h : setSpread tbl = .ok t') :
    t'.cols = tbl.cols ++ [spreadCol] := by
  rw [setSpread] at h
  by_cases hda : "lmp_da" ∈ tbl.cols
  · rw [if_pos hda] at h
    by_cases hrt : "lmp_rt" ∈ tbl.cols
    · rw [if_pos hrt] at h
      injection h with h
      rw [← h]
    · rw [if_neg hrt] at h
      exact Except.noConfusion h
  · rw [if_neg hda] at h
    exact Except.noConfusion h

end Lemmas

section Claims

/-- C1 counterexample: an upstream response of two well-formed records in
descending period order.  fetch returns both records in upstream order, so
the returned series is not sorted ascending by timestamp, contradicting the
claim that it is for every upstream response with well-formed records. -/
theorem fetch_unsorted_response_cex :
    (FinalDebugged.fetch_eia_v2_hourly_series "demand"
        { status_code := 200,
          respData := [{ period := 2, value := 5 }, { period := 1, value := 7 }] }).result =
      .ok [(2, 5), (1, 7)] ∧
    ¬ List.Pairwise (fun p q : Nat × Int => p.1 < q.1) [(2, 5), (1, 7)] := by
  constructor <;> decide

/-- C1 (amended): for every 200-status upstream response with a nonempty
array of N well-formed records and a supported metric, fetch returns a
TimeSeries of exactly the N records in upstream order; whenever the upstream
array is sorted strictly ascending by period — as the request's sort
parameters ask of the service — the returned series is sorted ascending by
timestamp and has no duplicate timestamps. -/
theorem fetch_returns_records_in_order (metric : String) (resp : HTTPResponse)
    (hm : (metric_map.lookup metric).isSome) (h200 : resp.status_code = 200)
    (hne : resp.respData ≠ []) :
    (FinalDebugged.fetch_eia_v2_hourly_series metric resp).result =
      .ok (resp.respData.map (fun rec => (rec.period, rec.value))) ∧
    (resp.respData.map (fun rec => (rec.period, rec.value))).length =
      resp.respData.length ∧
    (List.Pairwise (fun a b : EIARecord => a.period < b.period) resp.respData →
      List.Pairwise (fun p q : Nat × Int => p.1 < q.1)
          (resp.respData.map (fun rec => (rec.period, rec.value))) ∧
      ((resp.respData.map (fun rec => (rec.period, rec.value))).map Prod.fst).Nodup) := by
  have h1 : ¬ (metric_map.lookup metric).isNone = true := by
    rw [Option.isNone_iff_eq_none]
    exact Option.ne_none_iff_isSome.mpr hm
  refine ⟨?_, List.length_map _ _, ?_⟩
  · simp [FinalDebugged.fetch_eia_v2_hourly_series, h1, h200, hne]
  · intro hsorted
    constructor
    · exact List.pairwise_map.mpr hsorted
    · rw [List.map_map]
      exact List.Pairwise.imp (fun hlt => Nat.ne_of_lt hlt)
        (List.pairwise_map.mpr hsorted)

/-- C1 witness: a concrete sorted two-record response; fetch returns both
records in order. -/
theorem fetch_returns_records_in_order_witness :
    (metric_map.lookup "demand").isSome ∧
    (FinalDebugged.fetch_eia_v2_hourly_series "demand"
        { status_code := 200,
          respData := [{ period := 1, value := 7 }, { period := 2, value := 5 }] }).result =
      .ok (([{ period := 1, value := 7 }, { period := 2, value := 5 }] :
              List EIARecord).map
        (fun rec => (rec.period, rec.value))) :=
  ⟨by decide,
   (fetch_returns_records_in_order "demand"
     { status_code := 200,
       respData := [{ period := 1, value := 7 }, { period := 2, value := 5 }] }
     (by decide) rfl (by decide)).1⟩

/-- C2: for every metric string outside the seven enumerated kinds, fetch
signals UnsupportedMetricError and returns the empty frame without issuing
the HTTP request (the metric-map check precedes the network call). -/
theorem fetch_unsupported_metric_no_network (metric : String)
    (resp : HTTPResponse) (hm : metric_map.lookup metric = none) :
    FinalDebugged.fetch_eia_v2_hourly_series metric resp =
      { result := .ok [], signal := some .UnsupportedMetricError,
        networkCalled := false, metricCheckReached := true } := by
  simp [FinalDebugged.fetch_eia_v2_hourly_series, hm]

/-- C2 witness: a concrete unsupported metric. -/
theorem fetch_unsupported_metric_no_network_witness :
    metric_map.lookup "frequency_regulation" = none ∧
    FinalDebugged.fetch_eia_v2_hourly_series "frequency_regulation"
        { status_code := 200, respData := [{ period := 1, value := 3 }] } =
      { result := .ok [], signal := some .UnsupportedMetricError,
        networkCalled := false, metricCheckReached := true } :=
  ⟨by decide,
   fetch_unsupported_metric_no_network "frequency_regulation"
     { status_code := 200, respData := [{ period := 1, value := 3 }] } (by decide)⟩

/-- C6: for every well-formed 200-status upstream response whose data array
is empty, fetch returns the empty series, signals NoDataError, and raises no
exception. -/
theorem fetch_empty_data_nodata (metric : String) (resp : HTTPResponse)
    (hm : (metric_map.lookup metric).isSome) (h200 : resp.status_code = 200)
    (hempty : resp.respData = []) :
    FinalDebugged.fetch_eia_v2_hourly_series metric resp =
      { result := .ok [], signal := some .NoDataError,
        networkCalled := true, metricCheckReached := true } := by
  have h1 : ¬ (metric_map.lookup metric).isNone = true := by
    rw [Option.isNone_iff_eq_none]
    exact Option.ne_none_iff_isSome.mpr hm
  simp [FinalDebugged.fetch_eia_v2_hourly_series, h1, h200, hempty]

/-- C6 witness: a concrete empty 200-status response. -/
theorem fetch_empty_data_nodata_witness :
    (metric_map.lookup "wind").isSome ∧
    FinalDebugged.fetch_eia_v2_hourly_series "wind"
        { status_code := 200, respData := [] } =
      { result := .ok [], signal := some .NoDataError,
        networkCalled := true, metricCheckReached := true } :=
  ⟨by decide,
   fetch_empty_data_nodata "wind" { status_code := 200, respData := [] }
     (by decide) rfl rfl⟩

/-- C10: every call of the rolling-window variant's
fetch_eia_v2_hourly_series — for every respondent, metric, api key and
would-be response — raises AttributeError at datetime.utcnow() while
building the rolling date range (the file imports the datetime module, which
has no utcnow attribute; the name timedelta is unbound as well), before the
metric check runs and before any network request is issued. -/
theorem rolling7d_fetch_always_raises (respondent metric api_key : String)
    (resp : HTTPResponse) :
    Rolling7d.fetch_eia_v2_hourly_series respondent metric api_key resp =
      { result := .error (.AttributeError "datetime" "utcnow"), signal := none,
        networkCalled := false, metricCheckReached := false } ∧
    "utcnow" ∉ datetime_module_attrs ∧
    "timedelta" ∉ rolling7d_globals := by
  refine ⟨?_, by decide, by decide⟩
  simp only [Rolling7d.fetch_eia_v2_hourly_series]
  rw [if_pos (show "utcnow" ∉ datetime_module_attrs by decide)]

/-- C3: for unique-timestamp series A and B, the aligned table of [A, B] has
exactly one row per timestamp common to A and B; in particular, when A and B
share no timestamp the aligned table is empty. -/
theorem align_pair_common_timestamps (A B : TS)
    (hA : A.keys.Nodup) (hB : B.keys.Nodup) :
    (align [A, B]).rows.length = (A.keys.toFinset ∩ B.keys.toFinset).card ∧
    ((∀ t ∈ A.keys, t ∉ B.keys) → (align [A, B]).rows = []) := by
  have halign : align [A, B] = innerMerge (toTable A) (toTable B) := rfl
  constructor
  · rw [halign]
    show (List.filterMap _ (toTable A).rows).length = _
    rw [mergeRows_length (toTable A).rows (toTable B)]
    have hkeys : (toTable A).rows.map Prod.fst = A.keys := toTable_keys A
    rw [hkeys, toTable_keys]
    have hfin : A.keys.toFinset ∩ B.keys.toFinset =
        (A.keys.filter (fun t => decide (t ∈ B.keys))).toFinset := by
      ext x
      simp [List.mem_filter]
    rw [hfin, List.toFinset_card_of_nodup (hA.filter _)]
  · intro hdisj
    rw [halign]
    show List.filterMap _ (toTable A).rows = []
    rw [List.filterMap_eq_nil_iff]
    intro r hr
    have hrA : r.1 ∈ A.keys := by
      have hmem := List.mem_map_of_mem Prod.fst hr
      rw [← Table.keys, toTable_keys] at hmem
      exact hmem
    have hrB : (toTable B).rows.lookup r.1 = none := by
      rw [← Option.not_isSome_iff_eq_none, lookup_isSome_iff]
      rw [show (toTable B).rows.map Prod.fst = B.keys from toTable_keys B]
      exact hdisj r.1 hrA
    rw [hrB]

/-- C3 witness: two concrete series sharing exactly the timestamps 2 and 3,
and two concrete disjoint series. -/
theorem align_pair_common_timestamps_witness :
    (align [{ name := "demand", rows := [(1, 100), (2, 110), (3, 120)] },
            { name := "wind", rows := [(2, 20), (3, 30), (4, 40)] }]).rows.length =
      (({ name := "demand", rows := [(1, 100), (2, 110), (3, 120)]} : TS).keys.toFinset ∩
       ({ name := "wind", rows := [(2, 20), (3, 30), (4, 40)]} : TS).keys.toFinset).card :=
  (align_pair_common_timestamps
    { name := "demand", rows := [(1, 100), (2, 110), (3, 120)] }
    { name := "wind", rows := [(2, 20), (3, 30), (4, 40)] }
    (by decide) (by decide)).1

/-- C8: align is order-insensitive.  For every two permutations of a list of
series with unique timestamps and distinct metric names, the aligned tables
are row-equal: they have the same set of timestamps, and at every timestamp
and every series' metric column they hold the same value. -/
theorem align_order_insensitive (l1 l2 : List TS) (hperm : l1.Perm l2)
    (hts : ∀ s ∈ l1, s.keys.Nodup)
    (hnames : (l1.map TS.name).Nodup) :
    (∀ t, t ∈ (align l1).keys ↔ t ∈ (align l2).keys) ∧
    (∀ t, ∀ s ∈ l1, (align l1).cellAt t s.name = (align l2).cellAt t s.name) := by
  constructor
  · intro t
    by_cases hl : l1 = []
    · subst hl
      have h2 : l2 = [] := List.Perm.eq_nil hperm.symm
      subst h2
      exact Iff.rfl
    · have h2 : l2 ≠ [] := by
        intro he
        exact hl (List.Perm.eq_nil (he ▸ hperm))
      rw [align_keys_mem l1 hl t, align_keys_mem l2 h2 t]
      exact ⟨fun h u hu => h u (hperm.symm.subset hu),
             fun h u hu => h u (hperm.subset hu)⟩
  · intro t s hs
    have hs2 : s ∈ l2 := hperm.subset hs
    have hnames2 : (l2.map TS.name).Nodup :=
      ((hperm.map TS.name).nodup_iff).mp hnames
    by_cases hall : ∀ u ∈ l1, (u.rows.lookup t).isSome
    · have hall2 : ∀ u ∈ l2, (u.rows.lookup t).isSome :=
        fun u hu => hall u (hperm.symm.subset hu)
      rw [align_cellAt_of_all l1 s hs hnames t hall,
        align_cellAt_of_all l2 s hs2 hnames2 t hall2]
    · have hmiss2 : ¬ ∀ u ∈ l2, (u.rows.lookup t).isSome :=
        fun h => hall (fun u hu => h u (hperm.subset hu))
      rw [align_cellAt_of_missing l1 (List.ne_nil_of_mem hs) t hall s.name,
        align_cellAt_of_missing l2 (List.ne_nil_of_mem hs2) t hmiss2 s.name]

/-- C8 witness: three concrete series aligned in two opposite orders agree
at a concrete common timestamp in a concrete metric column. -/
theorem align_order_insensitive_witness :
    (align [{ name := "demand", rows := [(1, 100), (2, 110)] },
            { name := "wind", rows := [(1, 10), (2, 20)] },
            { name := "solar", rows := [(2, 5), (3, 6)] }]).cellAt 2 "demand" =
    (align [{ name := "solar", rows := [(2, 5), (3, 6)] },
            { name := "wind", rows := [(1, 10), (2, 20)] },
            { name := "demand", rows := [(1, 100), (2, 110)] }]).cellAt 2 "demand" :=
  (align_order_insensitive
    [{ name := "demand", rows := [(1, 100), (2, 110)] },
     { name := "wind", rows := [(1, 10), (2, 20)] },
     { name := "solar", rows := [(2, 5), (3, 6)] }]
    [{ name := "solar", rows := [(2, 5), (3, 6)] },
     { name := "wind", rows := [(1, 10), (2, 20)] },
     { name := "demand", rows := [(1, 100), (2, 110)] }]
    (by decide) (by decide) (by decide)).2 2
    { name := "demand", rows := [(1, 100), (2, 110)] } (by decide)

/-- C4: on every well-formed aligned table carrying the day-ahead and
real-time price columns (and no prior spread column), the derive step
succeeds and the spread column equals, in every row, the day-ahead price
minus the real-time price — the value of the single subtraction of the two
price cells, with both price cells left intact. -/
theorem derive_spread_rowwise (tbl : Table) (hwf : Table.WF tbl)
    (hda : "lmp_da" ∈ tbl.cols) (hrt : "lmp_rt" ∈ tbl.cols)
    (hs : spreadCol ∉ tbl.cols) :
    ∃ t', setSpread tbl = Except.ok t' ∧
      t'.rows.length = tbl.rows.length ∧
      ∀ r ∈ tbl.rows, ∀ da rt : Int,
        r.2.lookup "lmp_da" = some da → r.2.lookup "lmp_rt" = some rt →
        ∃ r' ∈ t'.rows, r'.1 = r.1 ∧
          r'.2.lookup spreadCol = some (da - rt) ∧
          r'.2.lookup "lmp_da" = some da ∧ r'.2.lookup "lmp_rt" = some rt := by
  have hred : setSpread tbl =
      .ok { cols := tbl.cols ++ [spreadCol],
            rows := tbl.rows.map (fun r =>
              (r.1, r.2 ++
                [(spreadCol,
                  ((r.2.lookup "lmp_da").getD 0) - ((r.2.lookup "lmp_rt").getD 0))])) } := by
    rw [setSpread, if_pos hda, if_pos hrt]
  refine ⟨_, hred, by simp, ?_⟩
  intro r hr da rt hda' hrt'
  refine ⟨(r.1, r.2 ++
      [(spreadCol, ((r.2.lookup "lmp_da").getD 0) - ((r.2.lookup "lmp_rt").getD 0))]),
    List.mem_map_of_mem _ hr, rfl, ?_, ?_, ?_⟩
  · have hnone : r.2.lookup spreadCol = none := by
      apply slookup_eq_none
      rw [hwf r hr]
      exact hs
    rw [slookup_append, hnone, hda', hrt']
    simp [slookup_cons]
  · rw [slookup_append, hda']
    rfl
  · rw [slookup_append, hrt']
    rfl

/-- C4 witness: a concrete two-row aligned price table; the derive step
yields a spread cell equal to the subtraction in each row. -/
theorem derive_spread_rowwise_witness :
    Table.WF { cols := ["lmp_da", "lmp_rt"],
               rows := [(1, [("lmp_da", 30), ("lmp_rt", 25)]),
                        (2, [("lmp_da", 40), ("lmp_rt", 45)])] } ∧
    (∃ t', setSpread { cols := ["lmp_da", "lmp_rt"],
                       rows := [(1, [("lmp_da", 30), ("lmp_rt", 25)]),
                                (2, [("lmp_da", 40), ("lmp_rt", 45)])] } = Except.ok t' ∧
      t'.rows.length =
        ({ cols := ["lmp_da", "lmp_rt"],
           rows := [(1, [("lmp_da", 30), ("lmp_rt", 25)]),
                    (2, [("lmp_da", 40), ("lmp_rt", 45)])] } : Table).rows.length ∧
      ∀ r ∈ ({ cols := ["lmp_da", "lmp_rt"],
               rows := [(1, [("lmp_da", 30), ("lmp_rt", 25)]),
                        (2, [("lmp_da", 40), ("lmp_rt", 45)])] } : Table).rows,
        ∀ da rt : Int,
        r.2.lookup "lmp_da" = some da → r.2.lookup "lmp_rt" = some rt →
        ∃ r' ∈ t'.rows, r'.1 = r.1 ∧
          r'.2.lookup spreadCol = some (da - rt) ∧
          r'.2.lookup "lmp_da" = some da ∧ r'.2.lookup "lmp_rt" = some rt) :=
  ⟨by unfold Table.WF; decide,
   derive_spread_rowwise _ (by unfold Table.WF; decide) (by decide) (by decide)
     (by decide)⟩

/-- C7 counterexample: on a table lacking both price columns — in particular
lacking the real-time price column — the derive statement fails with the
missing-column error naming the day-ahead column, not the real-time column
the claim requires. -/
theorem derive_missing_both_cex :
    (runSpreadStmt [{ cols := [], rows := [] }] 0).2 =
      some (PyExc.KeyError "lmp_da") ∧
    some (PyExc.KeyError "lmp_da") ≠ some (PyExc.KeyError "lmp_rt") := by
  constructor <;> decide

/-- C7 (amended): on every input table that carries the day-ahead price
column but lacks the real-time price column, the derive statement fails with
the missing-column error naming the real-time column, and the heap is left
exactly as it was — no spread column is added to any table.  (When the
day-ahead column is also absent, the error names that column instead, since
it is accessed first.) -/
theorem derive_missing_rt_error (h : Heap) (r : Nat)
    (hda : "lmp_da" ∈ (Heap.get h r).cols)
    (hrt : "lmp_rt" ∉ (Heap.get h r).cols) :
    runSpreadStmt h r = (h, some (PyExc.KeyError "lmp_rt")) := by
  rw [runSpreadStmt, setSpread, if_pos hda, if_neg hrt]

/-- C7 witness: a concrete heap holding one table with a day-ahead column
and no real-time column. -/
theorem derive_missing_rt_error_witness :
    "lmp_da" ∈ (Heap.get [{ cols := ["lmp_da"], rows := [] }] 0).cols ∧
    runSpreadStmt [{ cols := ["lmp_da"], rows := [] }] 0 =
      ([{ cols := ["lmp_da"], rows := [] }], some (PyExc.KeyError "lmp_rt")) :=
  ⟨by decide,
   derive_missing_rt_error [{ cols := ["lmp_da"], rows := [] }] 0
     (by decide) (by decide)⟩

/-- C9 counterexample: the derive statement mutates its input table in
place.  On a concrete heap holding one aligned price table, after the spread
assignment the very cell that held the input table no longer holds the
columns it held before — the spread column was added to the input object,
not to a separate copy. -/
theorem derive_mutates_input_cex :
    (Heap.get (runSpreadStmt
        [{ cols := ["lmp_da", "lmp_rt"],
           rows := [(1, [("lmp_da", 30), ("lmp_rt", 25)])] }] 0).1 0).cols ≠
      ({ cols := ["lmp_da", "lmp_rt"],
         rows := [(1, [("lmp_da", 30), ("lmp_rt", 25)])] } : Table).cols := by
  decide

/-- C9 (amended): the derive step of the intertie block augments the merged
aligned table in place — the spread column is added to the very frame object
the merge chain produced, and the net-interchange column is renamed on it in
place — while the fetched input series da_df, rt_df and ni_df are never
mutated: after the whole block runs, the heap cells of all three inputs hold
exactly the frames they held before, and on success the merged frame's cell
carries the new spread column. -/
theorem intertie_inputs_unmutated (h : Heap) (da rt ni : Nat)
    (hda : da < Heap.size h) (hrt : rt < Heap.size h) (hni : ni < Heap.size h) :
    Heap.get (intertieBlock h da rt ni).1.1 da = Heap.get h da ∧
    Heap.get (intertieBlock h da rt ni).1.1 rt = Heap.get h rt ∧
    Heap.get (intertieBlock h da rt ni).1.1 ni = Heap.get h ni ∧
    ((intertieBlock h da rt ni).2 = none →
      spreadCol ∈
        (Heap.get (intertieBlock h da rt ni).1.1 (intertieBlock h da rt ni).1.2).cols) := by
  have hget : ∀ r : Nat, r < Heap.size h →
      Heap.get (intertieBlock h da rt ni).1.1 r = Heap.get h r := by
    intro r hr
    rw [intertieBlock]
    cases hsp : setSpread (Heap.get (h ++ [innerMerge (innerMerge (Heap.get h da)
        (Heap.get h rt)) (Heap.get h ni)]) (Heap.size h)) with
    | error e =>
      exact Heap.get_append_left h _ r hr
    | ok t' =>
      show Heap.get (Heap.set (h ++ [innerMerge (innerMerge (Heap.get h da)
          (Heap.get h rt)) (Heap.get h ni)]) (Heap.size h)
          (renameCol t' "net_interchange" "Net Interchange (MW)")) r = Heap.get h r
      rw [Heap.get_set_ne _ _ _ _ (Nat.ne_of_gt hr)]
      exact Heap.get_append_left h _ r hr
  refine ⟨hget da hda, hget rt hrt, hget ni hni, ?_⟩
  intro hok
  rw [intertieBlock] at hok ⊢
  cases hsp : setSpread (Heap.get (h ++ [innerMerge (innerMerge (Heap.get h da)
      (Heap.get h rt)) (Heap.get h ni)]) (Heap.size h)) with
  | error e => rw [hsp] at hok; exact Option.noConfusion hok
  | ok t' =>
    show spreadCol ∈
      (Heap.get (Heap.set (h ++ [innerMerge (innerMerge (Heap.get h da)
          (Heap.get h rt)) (Heap.get h ni)]) (Heap.size h)
          (renameCol t' "net_interchange" "Net Interchange (MW)")) (Heap.size h)).cols
    rw [Heap.get_set_self _ _ _ (by simp [Heap.size])]
    have hcols := setSpread_ok_cols _ _ hsp
    rw [renameCol_cols, hcols]
    have hmem : spreadCol ∈ (Heap.get (h ++ [innerMerge (innerMerge (Heap.get h da)
        (Heap.get h rt)) (Heap.get h ni)]) (Heap.size h)).cols ++ [spreadCol] :=
      List.mem_append_right _ (List.mem_singleton.mpr rfl)
    have hf : (fun c => if c = "net_interchange" then "Net Interchange (MW)" else c)
        spreadCol = spreadCol := by decide
    exact hf ▸ List.mem_map_of_mem _ hmem

/-- C9 witness for the amended claim: a concrete three-frame heap; after the
intertie block, the three input frames are unchanged. -/
theorem intertie_inputs_unmutated_witness :
    Heap.get (intertieBlock
        [{ cols := ["lmp_da"], rows := [(1, [("lmp_da", 30)])] },
         { cols := ["lmp_rt"], rows := [(1, [("lmp_rt", 25)])] },
         { cols := ["net_interchange"], rows := [(1, [("net_interchange", 100)])] }]
        0 1 2).1.1 0 =
      Heap.get
        [{ cols := ["lmp_da"], rows := [(1, [("lmp_da", 30)])] },
         { cols := ["lmp_rt"], rows := [(1, [("lmp_rt", 25)])] },
         { cols := ["net_interchange"], rows := [(1, [("net_interchange", 100)])] }] 0 :=
  (intertie_inputs_unmutated
    [{ cols := ["lmp_da"], rows := [(1, [("lmp_da", 30)])] },
     { cols := ["lmp_rt"], rows := [(1, [("lmp_rt", 25)])] },
     { cols := ["net_interchange"], rows := [(1, [("net_interchange", 100)])] }]
    0 1 2 (by decide) (by decide) (by decide)).1

set_option maxRecDepth 8000 in
/-- C5 counterexample: on a 168-point hourly history, the frame the forecast
pipeline returns contains the historical timestamp 0 — the history dates are
re-emitted ahead of the 48 future steps — so historical timestamps ARE
included in the returned Forecast, contradicting the claim.  The frame has
216 rows, not 48. -/
theorem forecast_includes_history_cex :
    0 ∈ ((forecast_load ((List.range 168).map (fun i => (i, (0 : Int))))
          (fun _ => (0, 0, 0)) 48).map ForecastRow.ds) ∧
    0 ∈ (((List.range 168).map (fun i => (i, (0 : Int)))).map Prod.fst) ∧
    (forecast_load ((List.range 168).map (fun i => (i, (0 : Int))))
          (fun _ => (0, 0, 0)) 48).length = 216 := by
  refine ⟨?_, ?_, ?_⟩ <;> decide

/-- C5 (amended): for every nonempty hourly history and every horizon, the
forecast frame's timestamps are the history timestamps followed by exactly
horizon future steps at hourly spacing, the first one hour after the last
input timestamp; given the forecaster's interval contract, every returned
row satisfies lower bound ≤ point estimate ≤ upper bound.  Historical
timestamps are included ahead of the horizon (fitted historical values), so
the future points are exactly the trailing horizon rows, not the whole
frame. -/
theorem forecast_horizon_rows (history : List (Nat × Int))
    (m : Nat → Int × Int × Int) (last : Nat)
    (hlast : (history.map Prod.fst).getLast? = some last)
    (hm : ∀ t, (m t).2.1 ≤ (m t).1 ∧ (m t).1 ≤ (m t).2.2) (horizon : Nat) :
    (forecast_load history m horizon).map ForecastRow.ds =
      history.map Prod.fst ++ (List.range horizon).map (fun i => last + 1 + i) ∧
    ((forecast_load history m horizon).drop history.length).map ForecastRow.ds =
      (List.range horizon).map (fun i => last + 1 + i) ∧
    ∀ fr ∈ forecast_load history m horizon,
      fr.yhat_lower ≤ fr.yhat ∧ fr.yhat ≤ fr.yhat_upper := by
  have hframe : make_future_dataframe (history.map Prod.fst) horizon =
      history.map Prod.fst ++ (List.range horizon).map (fun i => last + 1 + i) := by
    rw [make_future_dataframe, hlast]
  have hdsmap : ∀ frame : List Nat, (predict m frame).map ForecastRow.ds = frame := by
    intro frame
    have hcomp : ForecastRow.ds ∘
        (fun t => ({ ds := t, yhat := (m t).1, yhat_lower := (m t).2.1,
                     yhat_upper := (m t).2.2 } : ForecastRow)) = id := rfl
    rw [predict, List.map_map, hcomp, List.map_id]
  refine ⟨?_, ?_, ?_⟩
  · show (predict m (make_future_dataframe (history.map Prod.fst) horizon)).map
        ForecastRow.ds = _
    rw [hdsmap, hframe]
  · show ((predict m (make_future_dataframe (history.map Prod.fst) horizon)).drop
        history.length).map ForecastRow.ds = _
    rw [List.map_drop, hdsmap, hframe,
      List.drop_left' (by rw [List.length_map])]
  · intro fr hfr
    obtain ⟨t, _, rfl⟩ := List.mem_map.mp hfr
    exact hm t

/-- C5 witness: a concrete two-point history with a concrete interval-valid
model; the forecast frame re-emits the history and appends the two future
hourly steps. -/
theorem forecast_horizon_rows_witness :
    ([((0 : Nat), (10 : Int)), (1, 12)].map Prod.fst).getLast? = some 1 ∧
    (forecast_load [((0 : Nat), (10 : Int)), (1, 12)]
        (fun t => ((t : Int), (t : Int) - 1, (t : Int) + 1)) 2).map ForecastRow.ds =
      [((0 : Nat), (10 : Int)), (1, 12)].map Prod.fst ++
        (List.range 2).map (fun i => 1 + 1 + i) :=
  ⟨by decide,
   (forecast_horizon_rows [((0 : Nat), (10 : Int)), (1, 12)]
     (fun t => ((t : Int), (t : Int) - 1, (t : Int) + 1)) 1 (by decide)
     (fun t => ⟨by show (t : Int) - 1 ≤ (t : Int); omega,
                by show (t : Int) ≤ (t : Int) + 1; omega⟩) 2).1⟩

end Claims

end ElectricityDashboard
